import Mathlib

/-!
Verification of the streaming citation-reconciliation pipeline of a
RAG backend (`backend/ask.py`, `backend/libs/handler.py`).

Texts are modelled as `List Char`.  Similarity scores are modelled as
rationals: the source only ever compares scores against a threshold, so
the ordered field `ℚ` faithfully represents those comparisons.
-/

namespace RagApp

/-- One piece of a left-to-right scan of a text for the pattern
bracket, one or more digits, bracket (`r"\[(\d+)\]"`): either a literal
character or a complete citation marker holding its digit characters. -/
inductive Piece where
  | lit : Char → Piece
  | marker : List Char → Piece
deriving DecidableEq

/-- The characters a piece stands for in the original text. -/
def renderPiece : Piece → List Char
  | .lit c => [c]
  | .marker ds => '[' :: (ds ++ [']'])

/-- Digit pieces of a pending, not yet completed marker, as literals. -/
def litsOf (ds : List Char) : List Piece :=
  ds.map Piece.lit

/-- The scanning state machine behind Python's `re` scan for
`r"\[(\d+)\]"`: `none` means no marker is pending, `some ds` means an
opening bracket followed by the digits `ds` has been read.  A failed
attempt flushes the opening bracket and its digits as literals, exactly
as the regex engine restarts one character past a failed match start
(digits never begin a match, so skipping them as literals is faithful). -/
def piecesAux : Option (List Char) → List Char → List Piece
  | none, [] => []
  | some ds, [] => Piece.lit '[' :: litsOf ds
  | none, c :: rest =>
    if c = '[' then piecesAux (some []) rest
    else Piece.lit c :: piecesAux none rest
  | some ds, c :: rest =>
    if c.isDigit then piecesAux (some (ds ++ [c])) rest
    else if c = ']' ∧ ds ≠ [] then Piece.marker ds :: piecesAux none rest
    else if c = '[' then Piece.lit '[' :: (litsOf ds ++ piecesAux (some []) rest)
    else Piece.lit '[' :: (litsOf ds ++ (Piece.lit c :: piecesAux none rest))

/-- The non-overlapping left-to-right decomposition of a text into
literal characters and `[digits]` citation markers. -/
def pieces (s : List Char) : List Piece :=
  piecesAux none s

/-- Decimal value of a digit string, the model of Python's `int`. -/
def decValue (ds : List Char) : Nat :=
  ds.foldl (fun a c => 10 * a + (c.toNat - '0'.toNat)) 0

/-- The number of a marker piece, `none` on a literal. -/
def pieceNum : Piece → Option Nat
  | .lit _ => none
  | .marker ds => some (decValue ds)

/-- All citation-marker numbers of a text in scan order: the model of
`re.finditer(r"\[(\d+)\]", text)` collecting `int(match.group(1))`. -/
def findMarkers (s : List Char) : List Nat :=
  (pieces s).filterMap pieceNum

/-- Model of `re.sub(r"\[(\d+)\]", f, s)` where `f` maps a match (its
number and its full text `[digits]`) to its replacement: each scanned
marker is replaced, all other characters are kept. -/
def reSub (f : Nat → List Char → List Char) (s : List Char) : List Char :=
  ((pieces s).map (fun p =>
    match p with
    | .lit c => [c]
    | .marker ds => f (decValue ds) ('[' :: (ds ++ [']'])))).flatten

/-- Model of `SteamCustomHandler.clean_invalid_citations_from_complete_response`
(handler.py 147-166): with `numCitations` the length of the handler's
citation list.  When the citation list is empty (`if not self._citations`)
the text is returned unchanged; otherwise every scanned `[n]` marker with
`n` outside `[1, numCitations]` is replaced by the empty string and every
in-range marker is kept. -/
def clean_invalid_citations (numCitations : Nat) (text : List Char) : List Char :=
  if numCitations = 0 then text
  else reSub (fun n m => if 1 ≤ n ∧ n ≤ numCitations then m else []) text

/-- Metadata of a retrieved chunk, the keys `ask.py` reads
(`source`, `file_path`, `title`, `page`); absent keys are `none`. -/
structure Metadata where
  source : Option (List Char)
  filePath : Option (List Char)
  title : Option (List Char)
  page : Option Int
deriving DecidableEq

/-- One vector-store hit: its text (`page_content`) and its metadata. -/
structure Doc where
  pageContent : List Char
  metadata : Metadata
deriving DecidableEq

/-- A user-facing citation, the dict built in `generate` (ask.py 155-163). -/
structure Citation where
  id : List Char
  source : Option (List Char)
  localPath : List Char
  page : Option Int
  title : List Char
  relevanceScore : ℚ
  contentPreview : List Char
deriving DecidableEq

/-- Decimal digits of a natural number, the model of Python string
interpolation of an `int`. -/
def natDigits (n : Nat) : List Char :=
  (Nat.repr n).data

/-- Model of `os.path.basename`: the part after the last slash. -/
def basename (s : List Char) : List Char :=
  (s.reverse.takeWhile (fun c => c ≠ '/')).reverse

/-- Whether the lower-cased path ends with the given suffix, the model
of `source.lower().endswith(suffix)`. -/
def endsWithLower (s suffix : List Char) : Bool :=
  suffix.isSuffixOf (s.map Char.toLower)

/-- The placeholder Python string `'Unknown'` used when a hit has
neither a `source` nor a `file_path` key. -/
def unknownSource : List Char :=
  "Unknown".data

/-- The citation dict built for one accepted hit (ask.py 129-163):
source fallback, title fallback to the basename, 1-based PDF page
adjustment, `./`-stripping, CSV page suppression, document URL, and a
200-character content preview.  `k` is `len(citations) + 1`, the
1-based acceptance order. -/
def mkCitation (baseUrl : List Char) (d : Doc) (score : ℚ) (k : Nat) : Citation :=
  let source0 := (d.metadata.source.getD (d.metadata.filePath.getD unknownSource))
  let title := d.metadata.title.getD
    (if source0 ≠ unknownSource then basename source0 else "Unknown Document".data)
  let page0 := d.metadata.page
  let page1 :=
    if page0 ≠ none ∧ endsWithLower source0 ".pdf".data then
      page0.map (fun p => p + 1)
    else page0
  let source1 :=
    if "./".data.isPrefixOf source0 ∨ (['.', '\\']).isPrefixOf source0 then
      source0.drop 2
    else source0
  let page2 := if endsWithLower source1 ".csv".data then none else page1
  let url :=
    if source1 ≠ unknownSource then
      some (baseUrl ++ "/documents/".data ++ source1)
    else none
  { id := "ref_".data ++ natDigits k
    source := url
    localPath := source1
    page := page2
    title := title
    relevanceScore := score
    contentPreview :=
      if d.pageContent.length > 200 then d.pageContent.take 200 ++ "...".data
      else d.pageContent }

/-- The citation loop of `generate` (ask.py 111-164): walk the ranked
hits, break once `max_citations` citations are collected, skip a hit
whose score is above the relevance threshold, and append a citation
whose id is the acceptance count so far plus one. -/
def citLoop (baseUrl : List Char) (maxCitations : Nat) (threshold : ℚ) :
    List (Doc × ℚ) → List Citation → List Citation
  | [], acc => acc
  | (d, score) :: rest, acc =>
    if acc.length ≥ maxCitations then acc
    else if score > threshold then citLoop baseUrl maxCitations threshold rest acc
    else citLoop baseUrl maxCitations threshold rest
      (acc ++ [mkCitation baseUrl d score (acc.length + 1)])

/-- The filtered-documents loop of `generate` (ask.py 166-175): same
ranked order, same `max_citations` cutoff, keep a hit iff its score is
at or below the relevance threshold. -/
def filtLoop (maxCitations : Nat) (threshold : ℚ) :
    List (Doc × ℚ) → List Doc → List Doc
  | [], acc => acc
  | (d, score) :: rest, acc =>
    if acc.length ≥ maxCitations then acc
    else if score ≤ threshold then filtLoop maxCitations threshold rest (acc ++ [d])
    else filtLoop maxCitations threshold rest acc

/-- The citation builder of `generate` (ask.py 111-184): both loops,
followed by the defensive truncation to the shorter of the two lists
when their lengths differ (ask.py 178-184). -/
def buildCitationsAndDocs (hits : List (Doc × ℚ)) (maxCitations : Nat)
    (threshold : ℚ) (baseUrl : List Char) : List Citation × List Doc :=
  let citations := citLoop baseUrl maxCitations threshold hits []
  let docs := filtLoop maxCitations threshold hits []
  if citations.length ≠ docs.length then
    (citations.take (min citations.length docs.length),
     docs.take (min citations.length docs.length))
  else (citations, docs)

/-- A message put on the streamer queue.  `token` is a plain string put,
`title` and `citations` are the dicts the handler builds with a `type`
field, `endSignal` is the handler's stop signal `None`. -/
inductive Msg (α : Type) where
  | token : List Char → Msg α
  | title : List Char → Msg α
  | citations : List α → Msg α
  | endSignal : Msg α
deriving DecidableEq

/-- Whether a queue message is the stop signal `None`. -/
def isEnd {α : Type} : Msg α → Bool
  | .endSignal => true
  | _ => false

/-- Model of Python's `str.strip()`: whitespace removed at both ends. -/
def pyStrip (s : List Char) : List Char :=
  ((s.dropWhile Char.isWhitespace).reverse.dropWhile Char.isWhitespace).reverse

/-- Model of `SteamCustomHandler.extract_title_from_response`
(handler.py 41-63): when the text starts with `TITLE: `, the title is
the rest of the first line stripped, and the cleaned response is the
stripped remainder after the first newline (empty when there is no
newline); otherwise no title and the text unchanged. -/
def extract_title_from_response (resp : List Char) :
    Option (List Char) × List Char :=
  if resp = [] then (none, resp)
  else if "TITLE: ".data.isPrefixOf resp then
    let line0 := resp.takeWhile (fun c => c ≠ '\n')
    let restAll := resp.dropWhile (fun c => c ≠ '\n')
    let title := pyStrip (line0.drop 7)
    match restAll with
    | [] => (some title, [])
    | _ :: tail => (some title, pyStrip tail)
  else (none, resp)

/-- Model of `SteamCustomHandler.extract_used_citations`
(handler.py 65-95): empty when the handler holds no citations or the
text holds no `[n]` marker; otherwise the FULL stored citation list
(the code returns all available citations once any marker appears). -/
def extract_used_citations {α : Type} (cs : List α) (resp : List Char) :
    List α :=
  if cs.isEmpty then []
  else if findMarkers resp = [] then []
  else cs

/-- The per-request mutable state of `SteamCustomHandler`: the stored
citation list, the accumulated complete response, the title buffer and
the two title flags. -/
structure HandlerState (α : Type) where
  citations : List α
  completeResponse : List Char
  tokenBuffer : List Char
  titleProcessed : Bool
  buffering : Bool
deriving DecidableEq

/-- Handler state after `__init__` plus `set_citations cs`
(handler.py 11-30, ask.py 82 and 187). -/
def initState {α : Type} (cs : List α) : HandlerState α :=
  { citations := cs
    completeResponse := []
    tokenBuffer := []
    titleProcessed := false
    buffering := true }

/-- The buffer-resolution condition of `on_llm_new_token`
(handler.py 108-110): a newline with non-whitespace content after the
first newline, or more than 100 buffered characters. -/
def shouldResolve (buf : List Char) : Prop :=
  ('\n' ∈ buf ∧ (pyStrip ((buf.dropWhile (fun c => c ≠ '\n')).tail)).length > 0)
    ∨ buf.length > 100

instance (buf : List Char) : Decidable (shouldResolve buf) := by
  unfold shouldResolve
  infer_instance

/-- The messages put when the title buffer resolves
(handler.py 112-140): a non-empty extracted title is sent as a title
message followed by the remaining content when non-empty; otherwise the
whole buffer is sent as one token. -/
def resolveBufferMsgs {α : Type} (buf : List Char) : List (Msg α) :=
  match extract_title_from_response buf with
  | (some t, clean) =>
    if t ≠ [] then
      Msg.title t :: (if clean ≠ [] then [Msg.token clean] else [])
    else [Msg.token buf]
  | (none, _) => [Msg.token buf]

/-- Model of `SteamCustomHandler.on_llm_new_token` (handler.py 98-145):
the token is appended to the complete response unconditionally; while
buffering, the token extends the buffer and the buffer is either held
or resolved; after buffering, the token is put on the queue directly.
Returns the new state and the messages put on the queue. -/
def on_llm_new_token {α : Type} (st : HandlerState α) (token : List Char) :
    HandlerState α × List (Msg α) :=
  let st1 := { st with completeResponse := st.completeResponse ++ token }
  if st1.buffering ∧ st1.titleProcessed = false then
    let buf := st1.tokenBuffer ++ token
    if shouldResolve buf then
      ({ st1 with tokenBuffer := [], titleProcessed := true, buffering := false },
        resolveBufferMsgs buf)
    else
      ({ st1 with tokenBuffer := buf }, [])
  else
    (st1, [Msg.token token])

/-- The handler run over a whole token stream, collecting every queue
message in order. -/
def processTokens {α : Type} (st : HandlerState α) :
    List (List Char) → HandlerState α × List (Msg α)
  | [] => (st, [])
  | t :: ts =>
    let r1 := on_llm_new_token st t
    let r2 := processTokens r1.1 ts
    (r2.1, r1.2 ++ r2.2)

/-- The title-extraction step of `on_llm_end` (handler.py 230-245):
when the (cleaned) response is non-empty and no title was extracted
during streaming, a non-empty extracted title is put as a title message
and the stored response becomes the cleaned remainder; otherwise
nothing is put and the response is kept. -/
def titleStep (α : Type) (resp1 : List Char) (titleProcessed : Bool) :
    List (Msg α) × List Char :=
  if resp1 ≠ [] ∧ titleProcessed = false then
    match extract_title_from_response resp1 with
    | (some t, clean) =>
      if t ≠ [] then ([Msg.title t], clean) else ([], resp1)
    | (none, _) => ([], resp1)
  else ([], resp1)

/-- The citations step of `on_llm_end` (handler.py 247-271): when
citations are stored, the response is non-empty and some `[n]` marker
remains in it, put one citations message holding
`extract_used_citations`; otherwise put nothing. -/
def citationsStep {α : Type} (cs : List α) (resp2 : List Char) :
    List (Msg α) :=
  if cs.isEmpty = false ∧ resp2 ≠ [] then
    if findMarkers resp2 ≠ [] then
      let avail := extract_used_citations cs resp2
      if avail.isEmpty = false then [Msg.citations avail] else []
    else []
  else []

/-- Model of `SteamCustomHandler.on_llm_end` (handler.py 216-273):
clean invalid markers from the accumulated response (only when both the
response and the citation list are non-empty), run the title step, run
the citations step on the title-stripped text, and always put the stop
signal last.  Returns the messages put and the final stored complete
response. -/
def on_llm_end {α : Type} (cs : List α) (resp0 : List Char)
    (titleProcessed : Bool) : List (Msg α) × List Char :=
  let resp1 :=
    if resp0 ≠ [] ∧ cs.isEmpty = false then clean_invalid_citations cs.length resp0
    else resp0
  let ts := titleStep α resp1 titleProcessed
  (ts.1 ++ citationsStep cs ts.2 ++ [Msg.endSignal], ts.2)

/-- A server-sent-event frame yielded to the client, identified by the
`type` field of its JSON payload. -/
inductive Frame (α : Type) where
  | token : List Char → Frame α
  | title : List Char → Frame α
  | citations : List α → Frame α
deriving DecidableEq

/-- The frames `response_generator` (ask.py 254-283) yields for one
queue message: a dict whose `type` is `citations` is forwarded, a plain
string becomes a token frame, and any other dict — in particular the
title dict — matches neither branch and yields nothing. -/
def msgFrames {α : Type} : Msg α → List (Frame α)
  | .citations cs => [Frame.citations cs]
  | .token s => [Frame.token s]
  | .title _ => []
  | .endSignal => []

/-- Model of the consumer loop of `response_generator` (ask.py 265-283):
messages are read in order until the stop signal `None`, each yielding
its frames. -/
def response_generator {α : Type} (msgs : List (Msg α)) : List (Frame α) :=
  ((msgs.takeWhile (fun m => ¬ isEnd m)).map msgFrames).flatten

/-- The fallback text put when retrieval returns no documents
(ask.py 202). -/
def noDocsMsg : List Char :=
  "No relevant documents found.".data

/-- The producer side of one generation run (`generate`, ask.py 78-247):
build citations and filtered documents, and either put the single
fallback token and return (zero hits, ask.py 199-203) or run the model
stream through the handler callbacks followed by `on_llm_end`.
`llmTokens` abstracts the model's token stream.  Returns every message
put on the streamer queue, in order. -/
def generate (hits : List (Doc × ℚ)) (maxCitations : Nat) (threshold : ℚ)
    (baseUrl : List Char) (llmTokens : List (List Char)) : List (Msg Citation) :=
  let built := buildCitationsAndDocs hits maxCitations threshold baseUrl
  if hits.isEmpty then [Msg.token noDocsMsg]
  else
    let run := processTokens (initState built.1) llmTokens
    run.2 ++ (on_llm_end built.1 run.1.completeResponse run.1.titleProcessed).1

/-- One prior exchange of the chat history, a dict with keys `user`
and `bot`. -/
structure ChatMsg where
  user : List Char
  bot : List Char
deriving DecidableEq

/-- Model of `chat_context` (ask.py 211): the newline join of
`User: {u}\nBot: {b}` over the history. -/
def chatContext (hist : List ChatMsg) : List Char :=
  List.intercalate ['\n']
    (hist.map (fun m => "User: ".data ++ m.user ++ "\nBot: ".data ++ m.bot))

/-- Model of `context_with_citations` (ask.py 206-208): reference `i+1`
rendered as `[i+1] {content}\n\n`, starting from `i = 0`. -/
def contextWithCitations : Nat → List Doc → List Char
  | _, [] => []
  | i, d :: ds =>
    ('[' :: (natDigits (i + 1) ++ "] ".data)) ++ d.pageContent ++ "\n\n".data
      ++ contextWithCitations (i + 1) ds

/-- Model of `available_citations` (ask.py 213): the comma join of
`[1]`, ..., `[n]`. -/
def availableCitations (n : Nat) : List Char :=
  List.intercalate ", ".data
    ((List.range n).map (fun i => '[' :: (natDigits (i + 1) ++ [']'])))

/-- The prompt string of `generate` (ask.py 215-243), the f-string
rendered with the reference count, the available-citation list, the
numbered reference block, the chat history and the query. -/
def build_prompt (query : List Char) (filteredDocs : List Doc)
    (hist : List ChatMsg) : List Char :=
  let n := filteredDocs.length
  let avail := availableCitations n
  "You are AI Assistant, \n\nCRITICAL CITATION RULES - FOLLOW EXACTLY:\n- You have EXACTLY ".data
    ++ natDigits n ++ " references available: ".data ++ avail
    ++ "\n- DO NOT USE any citation numbers higher than [".data ++ natDigits n
    ++ "]\n- NEVER use citations like [".data ++ natDigits (n + 1)
    ++ "], [".data ++ natDigits (n + 2)
    ++ "], etc. - THEY DON'T EXIST\n- If you need to cite information, use ONLY: ".data
    ++ avail
    ++ "\n- Any citation outside this range will cause errors\n\nRESPONSE INSTRUCTIONS:\n- Use the provided numbered references to cite information immediately after relevant content\n- Example: \"The holiday is on 14.01.2025 [1] and falls on Tuesday [2].\"\n- Format your response clearly using markdown for better readability\n- You may use basic conversational greetings (e.g., \"Hi\", \"Hello\", \"Thank you\") even if they are not in the documents.\n- For all other content, do not use outside knowledge or assumptions. Only use the provided references ".data
    ++ avail
    ++ " to answer.\n- If you don't know the answer, say \"I regret to inform you that I am unable to provide a specific answer at this time, as this information is not available to me.\"\n- Do not generate or assume any information that is not explicitly present in the provided references.\n- Be concise and well-organized in your responses\n- Focus on the most relevant information from the context\n\nNUMBERED REFERENCES (CITATIONS ".data
    ++ avail ++ " ONLY):\n".data ++ contextWithCitations 0 filteredDocs
    ++ "\nCHAT HISTORY:\n".data ++ chatContext hist
    ++ "\n\nQUESTION: ".data ++ query ++ "\n\nANSWER:".data

/-- The detail string of the 400 error for an over-long query
(ask.py 809). -/
def queryTooLongDetail (maxLen : Nat) : List Char :=
  "Query too long. Maximum length is ".data ++ natDigits maxLen
    ++ " characters.".data

/-- Model of the `/ask` endpoint body (`stream`, ask.py 791-812): a
query longer than the configured maximum raises the 400 error before
any generation value is built; otherwise the endpoint overwrites the
client chat history with the empty list and hands the query and that
empty history to the response generator. -/
def ask_stream (query : List Char) (chatHistory : List ChatMsg)
    (maxQueryLength : Nat) : Except (List Char) (List Char × List ChatMsg) :=
  if query.length > maxQueryLength then
    Except.error (queryTooLongDetail maxQueryLength)
  else
    Except.ok (query, [])

/-- The prompt the model receives for one accepted `/ask` request:
`none` when the endpoint rejects the query, otherwise `build_prompt`
applied to the arguments the endpoint actually forwards. -/
def request_prompt (query : List Char) (hist : List ChatMsg)
    (maxQueryLength : Nat) (hits : List (Doc × ℚ)) (maxCitations : Nat)
    (threshold : ℚ) (baseUrl : List Char) : Option (List Char) :=
  match ask_stream query hist maxQueryLength with
  | .error _ => none
  | .ok q =>
    some (build_prompt q.1
      (buildCitationsAndDocs hits maxCitations threshold baseUrl).2 q.2)

/-- Characters of a pending scanner state. -/
def pendingChars : Option (List Char) → List Char
  | none => []
  | some ds => '[' :: ds

/-- The number of citations the builder accepts for a hit list under a
`max_citations` bound and a relevance threshold. -/
def acceptedCount (hits : List (Doc × ℚ)) (maxCitations : Nat)
    (threshold : ℚ) (baseUrl : List Char) : Nat :=
  (citLoop baseUrl maxCitations threshold hits []).length

/-- Base URL fixture for concrete runs. -/
def exBase : List Char :=
  "http://127.0.0.1:8000".data

/-- A concrete PDF hit. -/
def exDoc1 : Doc :=
  { pageContent := "Doc one content.".data
    metadata :=
      { source := some "data/one.pdf".data
        filePath := none
        title := some "One".data
        page := some 3 } }

/-- A concrete CSV hit. -/
def exDoc2 : Doc :=
  { pageContent := "Doc two content.".data
    metadata :=
      { source := some "data/two.csv".data
        filePath := none
        title := some "Two".data
        page := none } }

/-- A concrete hit with a dot-slash path and no title key. -/
def exDoc3 : Doc :=
  { pageContent := "Doc three content.".data
    metadata :=
      { source := some "./data/three.pdf".data
        filePath := none
        title := none
        page := some 0 } }

/-- A concrete ranked hit list (scores 0.2, 0.6, 0.3). -/
def exHits : List (Doc × ℚ) :=
  [(exDoc1, Rat.divInt 1 5), (exDoc2, Rat.divInt 3 5), (exDoc3, Rat.divInt 3 10)]

/-- The response text of the spec's Scenario B. -/
def scenarioBText : List Char :=
  "The date is 14.01.2025 [1] and day is Tuesday [5].".data

/-- The model token stream of the spec's Scenario D. -/
def scenarioDTokens : List (List Char) :=
  ["TITLE: Holiday Schedule\nThe holidays are listed below.".data]

/-- A single accepted hit for Scenario D. -/
def scenarioDHit : Doc × ℚ :=
  ({ pageContent := "Holiday list.".data
     metadata :=
       { source := some "data/holidays.pdf".data
         filePath := none
         title := some "Holidays".data
         page := some 3 } }, Rat.divInt 1 5)

/-- Every queue message of the Scenario D producer run. -/
def scenarioDMsgs : List (Msg Citation) :=
  generate [scenarioDHit] 5 (Rat.divInt 2 5) exBase scenarioDTokens

/-- Rendering the literal pieces of a digit run gives back the run. -/
theorem litsOf_render (ds : List Char) :
    ((litsOf ds).map renderPiece).flatten = ds := by
  induction ds with
  | nil => rfl
  | cons c cs ih =>
    simp only [litsOf, List.map_cons, List.map_map] at ih ⊢
    simp only [List.flatten_cons, renderPiece, ih, List.singleton_append]

/-- Rendering every piece of the scan, with the pending state in front,
reconstructs the scanned text. -/
theorem piecesAux_render (s : List Char) :
    ∀ st, ((piecesAux st s).map renderPiece).flatten = pendingChars st ++ s := by
  induction s with
  | nil =>
    intro st
    match st with
    | none => rfl
    | some ds =>
      simp only [piecesAux, pendingChars, List.map_cons, List.flatten_cons,
        renderPiece, litsOf_render, List.singleton_append, List.append_nil]
  | cons c rest ih =>
    intro st
    match st with
    | none =>
      simp only [piecesAux, pendingChars, List.nil_append]
      by_cases hc : c = '['
      · rw [if_pos hc, ih (some [])]
        simp [pendingChars, hc]
      · rw [if_neg hc]
        simp only [List.map_cons, List.flatten_cons, renderPiece, ih none,
          pendingChars, List.nil_append, List.singleton_append]
    | some ds =>
      simp only [piecesAux, pendingChars]
      by_cases hd : c.isDigit
      · rw [if_pos hd, ih (some (ds ++ [c]))]
        simp [pendingChars]
      · rw [if_neg hd]
        by_cases hm : c = ']' ∧ ds ≠ []
        · rw [if_pos hm, List.map_cons, List.flatten_cons, renderPiece, ih none]
          simp [pendingChars, hm.1]
        · rw [if_neg hm]
          by_cases hb : c = '['
          · rw [if_pos hb, List.map_cons, List.flatten_cons, renderPiece,
              List.map_append, List.flatten_append, litsOf_render, ih (some [])]
            simp [pendingChars, hb]
          · rw [if_neg hb, List.map_cons, List.flatten_cons, renderPiece,
              List.map_append, List.flatten_append, litsOf_render,
              List.map_cons, List.flatten_cons, renderPiece, ih none]
            simp [pendingChars]

/-- Rendering every piece of the scan reconstructs the text. -/
theorem pieces_render (s : List Char) :
    ((pieces s).map renderPiece).flatten = s :=
  piecesAux_render s none

/-- A substitution that fixes every scanned marker of a text fixes the
text. -/
theorem reSub_eq_self (f : Nat → List Char → List Char) (s : List Char)
    (h : ∀ ds, Piece.marker ds ∈ pieces s →
      f (decValue ds) ('[' :: (ds ++ [']'])) = '[' :: (ds ++ [']'])) :
    reSub f s = s := by
  unfold reSub
  have hmap : (pieces s).map (fun p =>
      match p with
      | .lit c => [c]
      | .marker ds => f (decValue ds) ('[' :: (ds ++ [']']))) =
      (pieces s).map renderPiece := by
    apply List.map_congr_left
    intro p hp
    match p with
    | .lit c => rfl
    | .marker ds => exact h ds hp
  rw [hmap, pieces_render]

/-- Invalid-marker stripping is the identity on a text whose scanned
markers are all within `[1, N]` (any `N`, the `N = 0` branch returning
the text unchanged by definition). -/
theorem clean_invalid_of_valid (N : Nat) (s : List Char)
    (h : ∀ k ∈ findMarkers s, 1 ≤ k ∧ k ≤ N) :
    clean_invalid_citations N s = s := by
  unfold clean_invalid_citations
  split
  · rfl
  · apply reSub_eq_self
    intro ds hds
    have hk : decValue ds ∈ findMarkers s :=
      List.mem_filterMap.mpr ⟨Piece.marker ds, hds, rfl⟩
    rw [if_pos (h (decValue ds) hk)]

/-- Pointwise length bound for flattened maps. -/
theorem flatten_map_length_le {β : Type} (g h : β → List Char) (ps : List β)
    (hle : ∀ p ∈ ps, (g p).length ≤ (h p).length) :
    ((ps.map g).flatten).length ≤ ((ps.map h).flatten).length := by
  induction ps with
  | nil => simp
  | cons a l ih =>
    simp only [List.map_cons, List.flatten_cons, List.length_append]
    have h1 := hle a (List.mem_cons_self a l)
    have h2 := ih (fun p hp => hle p (List.mem_cons_of_mem a hp))
    omega

/-- Strict length bound for flattened maps when one element strictly
shrinks. -/
theorem flatten_map_length_lt {β : Type} (g h : β → List Char) (ps : List β)
    (hle : ∀ p ∈ ps, (g p).length ≤ (h p).length)
    (hex : ∃ p ∈ ps, (g p).length < (h p).length) :
    ((ps.map g).flatten).length < ((ps.map h).flatten).length := by
  induction ps with
  | nil => simp at hex
  | cons a l ih =>
    simp only [List.map_cons, List.flatten_cons, List.length_append]
    obtain ⟨p, hp, hplt⟩ := hex
    rcases List.mem_cons.mp hp with rfl | hpl
    · have h2 := flatten_map_length_le g h l
        (fun q hq => hle q (List.mem_cons_of_mem p hq))
      omega
    · have h1 := hle a (List.mem_cons_self a l)
      have h2 := ih (fun q hq => hle q (List.mem_cons_of_mem a hq)) ⟨p, hpl, hplt⟩
      omega

/-- A text holding a scanned marker outside `[1, N]` strictly shrinks
under stripping (for `N ≥ 1`). -/
theorem clean_invalid_length_lt (N : Nat) (s : List Char) (hN : 1 ≤ N)
    (h : ∃ k ∈ findMarkers s, ¬(1 ≤ k ∧ k ≤ N)) :
    (clean_invalid_citations N s).length < s.length := by
  obtain ⟨k, hk, hbad⟩ := h
  obtain ⟨p, hp, hnum⟩ := List.mem_filterMap.mp hk
  match p, hnum with
  | Piece.marker ds, hnum =>
    have hds : decValue ds = k := Option.some.inj hnum
    unfold clean_invalid_citations
    rw [if_neg (by omega)]
    unfold reSub
    conv_rhs => rw [← pieces_render s]
    apply flatten_map_length_lt
    · intro q _
      match q with
      | Piece.lit c => exact Nat.le_refl _
      | Piece.marker es =>
        simp only [renderPiece]
        split <;> simp
    · refine ⟨Piece.marker ds, hp, ?_⟩
      simp only [renderPiece]
      rw [if_neg (by rw [hds]; exact hbad)]
      simp

/-- The citation loop accepts the threshold-passing hits up to the
`max_citations` cap: its result length is the capped count. -/
theorem citLoop_length (baseUrl : List Char) (m : Nat) (thr : ℚ)
    (hits : List (Doc × ℚ)) :
    ∀ acc : List Citation, acc.length ≤ m →
      (citLoop baseUrl m thr hits acc).length =
        min m (acc.length + hits.countP (fun p => decide (p.2 ≤ thr))) := by
  induction hits with
  | nil =>
    intro acc h
    simp only [citLoop, List.countP_nil, Nat.add_zero]
    omega
  | cons hd tl ih =>
    intro acc h
    obtain ⟨d, score⟩ := hd
    unfold citLoop
    by_cases hge : acc.length ≥ m
    · rw [if_pos hge]
      have hc := List.countP_cons (fun p : Doc × ℚ => decide (p.2 ≤ thr)) (d, score) tl
      omega
    · rw [if_neg hge]
      by_cases hs : score > thr
      · rw [if_pos hs, ih acc h]
        have : (decide (((d, score) : Doc × ℚ).2 ≤ thr)) = false := by
          simp [not_le.mpr hs]
        rw [List.countP_cons, this]
        simp
      · rw [if_neg hs, ih _ (by simp only [List.length_append,
          List.length_cons, List.length_nil]; omega)]
        have : (decide (((d, score) : Doc × ℚ).2 ≤ thr)) = true := by
          simp [not_lt.mp hs]
        rw [List.countP_cons, this]
        simp only [List.length_append, List.length_cons, List.length_nil,
          if_true]
        omega

/-- The citation loop and the filtered-document loop of `generate`
accept exactly the same hits: started from accumulators of equal
length, their results have equal length. -/
theorem citLoop_filtLoop_length (baseUrl : List Char) (m : Nat) (thr : ℚ)
    (hits : List (Doc × ℚ)) :
    ∀ (acc : List Citation) (dacc : List Doc), acc.length = dacc.length →
      (citLoop baseUrl m thr hits acc).length =
        (filtLoop m thr hits dacc).length := by
  induction hits with
  | nil =>
    intro acc dacc h
    simpa [citLoop, filtLoop] using h
  | cons hd tl ih =>
    obtain ⟨d, score⟩ := hd
    intro acc dacc h
    unfold citLoop filtLoop
    by_cases hge : acc.length ≥ m
    · have hge' : dacc.length ≥ m := by omega
      rw [if_pos hge, if_pos hge']
      exact h
    · have hge' : ¬dacc.length ≥ m := by omega
      rw [if_neg hge, if_neg hge']
      by_cases hs : score > thr
      · rw [if_pos hs, if_neg (not_le.mpr hs)]
        exact ih acc dacc h
      · rw [if_neg hs, if_pos (not_lt.mp hs)]
        exact ih _ _ (by simp [h])

/-- Every citation the loop appends carries the id of its 1-based
acceptance position: positions already correct in the accumulator stay
correct, and each appended citation's id is its position. -/
theorem citLoop_ids (baseUrl : List Char) (m : Nat) (thr : ℚ)
    (hits : List (Doc × ℚ)) :
    ∀ acc : List Citation,
      (∀ j c, acc[j]? = some c → c.id = "ref_".data ++ natDigits (j + 1)) →
      ∀ j c, (citLoop baseUrl m thr hits acc)[j]? = some c →
        c.id = "ref_".data ++ natDigits (j + 1) := by
  induction hits with
  | nil =>
    intro acc hacc
    simpa only [citLoop] using hacc
  | cons hd tl ih =>
    obtain ⟨d, score⟩ := hd
    intro acc hacc
    unfold citLoop
    by_cases hge : acc.length ≥ m
    · rw [if_pos hge]
      exact hacc
    · rw [if_neg hge]
      by_cases hs : score > thr
      · rw [if_pos hs]
        exact ih acc hacc
      · rw [if_neg hs]
        refine ih _ ?_
        intro i c hic
        by_cases hlt : i < acc.length
        · rw [List.getElem?_append_left hlt] at hic
          exact hacc i c hic
        · rw [List.getElem?_append_right (by omega)] at hic
          rcases hn : i - acc.length with _ | k
          · rw [hn] at hic
            simp only [List.getElem?_cons_zero, Option.some.injEq] at hic
            have hi : i = acc.length := by omega
            rw [← hic, hi]
            rfl
          · rw [hn] at hic
            simp at hic

/-- One `on_llm_new_token` call always appends the token to the
accumulated complete response, in every buffering branch. -/
theorem on_llm_new_token_completeResponse (α : Type) (st : HandlerState α)
    (t : List Char) :
    (on_llm_new_token st t).1.completeResponse = st.completeResponse ++ t := by
  unfold on_llm_new_token
  dsimp only
  split
  · split <;> rfl
  · rfl

/-- C10: after any sequence of `on_llm_new_token` calls, the handler's
accumulated complete response equals its previous contents followed by
the concatenation of all tokens received, in order, regardless of the
title-buffering state; buffering only changes what is enqueued. -/
theorem complete_response_accumulates (α : Type) (st : HandlerState α)
    (ts : List (List Char)) :
    (processTokens st ts).1.completeResponse =
      st.completeResponse ++ ts.flatten := by
  induction ts generalizing st with
  | nil => simp [processTokens]
  | cons t ts ih =>
    simp only [processTokens]
    rw [ih, on_llm_new_token_completeResponse]
    simp [List.flatten_cons, List.append_assoc]

/-- C9: two `/ask` requests that differ only in the client-supplied
chat history produce the same prompt: the endpoint overwrites the
history with the empty list before generation, so the history never
influences the prompt. -/
theorem prompt_ignores_chat_history (query : List Char) (h1 h2 : List ChatMsg)
    (maxQueryLength : Nat) (hits : List (Doc × ℚ)) (maxCitations : Nat)
    (threshold : ℚ) (baseUrl : List Char) :
    request_prompt query h1 maxQueryLength hits maxCitations threshold baseUrl =
      request_prompt query h2 maxQueryLength hits maxCitations threshold baseUrl :=
  rfl

/-- C8: a query longer than the configured maximum is rejected with the
error detail carrying that maximum, before any generation value is
built; a query at or below the maximum is not rejected by this check. -/
theorem query_length_check (query : List Char) (hist : List ChatMsg)
    (maxLen : Nat) :
    (query.length > maxLen →
      ask_stream query hist maxLen = Except.error (queryTooLongDetail maxLen)) ∧
    (query.length ≤ maxLen →
      ask_stream query hist maxLen = Except.ok (query, [])) := by
  constructor
  · intro h
    unfold ask_stream
    rw [if_pos h]
  · intro h
    have h2 : ¬query.length > maxLen := by omega
    unfold ask_stream
    rw [if_neg h2]

/-- Witness for C8 at a six-character query against maximum 5 and a
three-character query against maximum 5. -/
theorem query_length_check_witness :
    ask_stream "abcdef".data [] 5 = Except.error (queryTooLongDetail 5) ∧
    ask_stream "abc".data [] 5 = Except.ok ("abc".data, []) :=
  ⟨(query_length_check "abcdef".data [] 5).1 (by decide),
   (query_length_check "abc".data [] 5).2 (by decide)⟩

/-- C7: for a fixed ranked hit list, the accepted-citation count is
monotone: it never decreases when the relevance threshold is raised and
never decreases when the `max_citations` cap is raised (equivalently,
lowering the cap never increases it). -/
theorem citation_count_monotone (hits : List (Doc × ℚ)) (baseUrl : List Char)
    (thr thr2 : ℚ) (m m2 : Nat) (hthr : thr ≤ thr2) (hm : m ≤ m2) :
    acceptedCount hits m thr baseUrl ≤ acceptedCount hits m2 thr2 baseUrl := by
  unfold acceptedCount
  rw [citLoop_length baseUrl m thr hits [] (by simp),
    citLoop_length baseUrl m2 thr2 hits [] (by simp)]
  simp only [List.length_nil, Nat.zero_add]
  refine min_le_min hm (List.countP_mono_left ?_)
  intro p _ hp
  simp only [decide_eq_true_eq] at hp ⊢
  exact le_trans hp hthr

/-- Witness for C7 on the concrete hit list with threshold raised from
0.25 to 0.5 and the cap raised from 1 to 2. -/
theorem citation_count_monotone_witness :
    acceptedCount exHits 1 (Rat.divInt 1 4) exBase ≤ acceptedCount exHits 2 (Rat.divInt 1 2) exBase :=
  citation_count_monotone exHits exBase (Rat.divInt 1 4) (Rat.divInt 1 2) 1 2 (by decide) (by decide)

/-- C6 counterexample: one stripping pass on `"[2[2]]"` with one
citation yields `"[2]"`, and a second pass deletes that marker too, so
applying the step twice differs from applying it once. -/
theorem strip_not_idempotent :
    clean_invalid_citations 1 (clean_invalid_citations 1 "[2[2]]".data) ≠
      clean_invalid_citations 1 "[2[2]]".data := by
  decide

/-- C6 amended: the stripping step is idempotent on every input whose
first pass leaves no out-of-range marker (deleting a marker can splice
the surrounding characters into a new marker, so this can fail in
general). -/
theorem strip_idempotent_when_output_clean (N : Nat) (s : List Char)
    (h : ∀ k ∈ findMarkers (clean_invalid_citations N s), 1 ≤ k ∧ k ≤ N) :
    clean_invalid_citations N (clean_invalid_citations N s) =
      clean_invalid_citations N s :=
  clean_invalid_of_valid N _ h

/-- Witness for the amended C6 on a text whose first pass removes the
only invalid marker cleanly. -/
theorem strip_idempotent_when_output_clean_witness :
    clean_invalid_citations 1 (clean_invalid_citations 1 "A [1] B [2].".data) =
      clean_invalid_citations 1 "A [1] B [2].".data :=
  strip_idempotent_when_output_clean 1 "A [1] B [2].".data (by decide)

/-- C4 counterexample: with zero citations (`N = 0`) the stripping step
returns the text unchanged, so the out-of-range marker `[1]` survives
although the claim requires every marker outside `[1, 0]` to be
deleted. -/
theorem stripping_skipped_when_no_citations :
    clean_invalid_citations 0 "The answer [1].".data = "The answer [1].".data ∧
    findMarkers "The answer [1].".data = [1] := by
  decide

/-- C4 amended: for N at least 1 the stripping pass deletes every
scanned out-of-range marker, brackets included — it returns the text
unchanged exactly when every scanned marker lies in `[1, N]`, and
strictly shortens the text otherwise; for `N = 0` the text is returned
unchanged and nothing is stripped. -/
theorem clean_invalid_unchanged_iff (N : Nat) (s : List Char) (hN : 1 ≤ N) :
    clean_invalid_citations N s = s ↔
      ∀ k ∈ findMarkers s, 1 ≤ k ∧ k ≤ N := by
  constructor
  · intro h
    by_contra hcon
    push_neg at hcon
    obtain ⟨k, hk, hbad⟩ := hcon
    have hlt := clean_invalid_length_lt N s hN ⟨k, hk, by omega⟩
    rw [h] at hlt
    exact lt_irrefl _ hlt
  · exact clean_invalid_of_valid N s

/-- Witness for the amended C4: with one citation, the text changes
exactly because the marker `[2]` is out of range. -/
theorem clean_invalid_unchanged_iff_witness :
    clean_invalid_citations 1 "See [1] and [2].".data = "See [1] and [2].".data ↔
      ∀ k ∈ findMarkers "See [1] and [2].".data, 1 ≤ k ∧ k ≤ 1 :=
  clean_invalid_unchanged_iff 1 "See [1] and [2].".data (by decide)

/-- C1: for every ranked hit list, threshold and cap, the builder
returns equally long citation and filtered-chunk lists, and the i-th
citation (0-based i) has id `ref_{i+1}`, so citation i+1 aligns with
the i-th filtered chunk. -/
theorem citation_chunk_alignment (hits : List (Doc × ℚ)) (maxCitations : Nat)
    (threshold : ℚ) (baseUrl : List Char) :
    (buildCitationsAndDocs hits maxCitations threshold baseUrl).1.length =
      (buildCitationsAndDocs hits maxCitations threshold baseUrl).2.length ∧
    ∀ i (hi : i < (buildCitationsAndDocs hits maxCitations threshold baseUrl).1.length),
      (((buildCitationsAndDocs hits maxCitations threshold baseUrl).1.get ⟨i, hi⟩).id =
        "ref_".data ++ natDigits (i + 1)) := by
  have hlen := citLoop_filtLoop_length baseUrl maxCitations threshold hits [] [] rfl
  have hids := citLoop_ids baseUrl maxCitations threshold hits []
    (by intro j c hc; simp at hc)
  have hne : ¬(citLoop baseUrl maxCitations threshold hits []).length ≠
      (filtLoop maxCitations threshold hits []).length := not_not_intro hlen
  have hbuild : buildCitationsAndDocs hits maxCitations threshold baseUrl =
      (citLoop baseUrl maxCitations threshold hits [],
       filtLoop maxCitations threshold hits []) := by
    simp only [buildCitationsAndDocs, if_neg hne]
  rw [hbuild]
  refine ⟨hlen, ?_⟩
  intro i hi
  refine hids i _ ?_
  rw [List.get_eq_getElem]
  exact List.getElem?_eq_getElem hi

/-- Witness for C1 on the concrete hit list: equal lengths and the
first citation's id is `ref_1`. -/
theorem citation_chunk_alignment_witness :
    (buildCitationsAndDocs exHits 5 (Rat.divInt 2 5) exBase).1.length =
      (buildCitationsAndDocs exHits 5 (Rat.divInt 2 5) exBase).2.length ∧
    ((buildCitationsAndDocs exHits 5 (Rat.divInt 2 5) exBase).1.get ⟨0, by decide⟩).id =
      "ref_".data ++ natDigits 1 :=
  ⟨(citation_chunk_alignment exHits 5 (Rat.divInt 2 5) exBase).1,
   (citation_chunk_alignment exHits 5 (Rat.divInt 2 5) exBase).2 0 (by decide)⟩

/-- C3 (failing input): on the empty-retrieval path the producer puts
only the informational token and returns — no terminator is ever
enqueued, so the consumer has no final `end` message to stop on. -/
theorem no_terminator_on_empty_retrieval :
    generate [] 5 (Rat.divInt 2 5) exBase [] = [Msg.token noDocsMsg] ∧
    Msg.endSignal ∉ generate [] 5 (Rat.divInt 2 5) exBase [] := by
  decide

/-- C5 (failing input): in Scenario D the handler does enqueue a title
message, but the relay consumer forwards only citations dicts and plain
strings, so the client stream carries no title frame at all — only the
body token frame. -/
theorem title_frame_never_reaches_client :
    Msg.title "Holiday Schedule".data ∈ scenarioDMsgs ∧
    response_generator scenarioDMsgs =
      [Frame.token "The holidays are listed below.".data] := by
  decide

/-- C2 counterexample: Scenario B — response citing only `[1]` out of
three candidate citations.  After stripping the invalid `[5]`, the
emitted citations message carries ALL three candidates unchanged, not
the single re-indexed citation the claim requires. -/
theorem scenarioB_returns_all_citations :
    (on_llm_end [10, 20, 30] scenarioBText true).1 =
      [Msg.citations [10, 20, 30], Msg.endSignal] ∧
    (on_llm_end [10, 20, 30] scenarioBText true).2 =
      "The date is 14.01.2025 [1] and day is Tuesday .".data := by
  decide

/-- The title step never puts a citations message. -/
theorem titleStep_no_citations (α : Type) (resp1 : List Char)
    (titleProcessed : Bool) (m : List α) :
    Msg.citations m ∉ (titleStep α resp1 titleProcessed).1 := by
  unfold titleStep
  split
  · split
    · split <;> simp
    · simp
  · simp

/-- Any citations message the citations step puts carries exactly the
full stored citation list. -/
theorem citationsStep_full {α : Type} (cs : List α) (r : List Char)
    (m : List α) (h : Msg.citations m ∈ citationsStep cs r) : m = cs := by
  unfold citationsStep at h
  split at h
  · rename_i hguard
    split at h
    · rename_i hmk
      dsimp only at h
      split at h
      · simp only [List.mem_singleton, Msg.citations.injEq] at h
        rw [h]
        simp [extract_used_citations, hguard.1, hmk]
      · simp at h
    · simp at h
  · simp at h

/-- C2 amended: any citations message `on_llm_end` emits carries
exactly the full stored candidate list — no subsetting and no
re-indexing ever happens (policy (a) of the spec's open question). -/
theorem citations_message_is_full_list (α : Type) (cs : List α)
    (resp : List Char) (titleProcessed : Bool) (m : List α)
    (h : Msg.citations m ∈ (on_llm_end cs resp titleProcessed).1) :
    m = cs := by
  unfold on_llm_end at h
  dsimp only at h
  simp only [List.mem_append, List.mem_singleton] at h
  rcases h with (h | h) | h
  · exact absurd h (titleStep_no_citations α _ _ m)
  · exact citationsStep_full cs _ m h
  · simp at h

/-- Witness for the amended C2 at Scenario B with three candidate
citations. -/
theorem citations_message_is_full_list_witness :
    ([10, 20, 30] : List Nat) = [10, 20, 30] :=
  citations_message_is_full_list Nat [10, 20, 30] scenarioBText true
    [10, 20, 30] (by decide)

end RagApp
